import Mathlib

/-!
Verification of the tenant-routing middleware in
`src/multi_tenet/middleware/TenantMiddleware.py`.

The middleware holds a dictionary `connection_pools` from tenant identifier
to a database handle.  `_initialize_pools` iterates over
`settings.TENANT_DATABASES`, calls `psycopg2.connect(1, 20, database=...,
user=..., password=..., host=..., port=...)` for each tenant inside a
`try`/`except` that swallows any exception, and stores the returned object
under the tenant id.  `__call__` reads the `x-org` header (defaulting to
`"tenant1"`), returns a `JsonResponse` with body `error: "Invalid tenant"`
when the id is not a key of the dictionary, and otherwise attaches the
tenant id and the stored handle to the request before invoking the
downstream handler `get_response`.

The embedding below passes all mutable state explicitly.  Whether a call to
`psycopg2.connect` raises is decided by an environment oracle `env`; on
success the oracle supplies the identity of the connection object that the
library returns.
-/

set_option autoImplicit false

namespace TenantMW

/-- One entry of `settings.TENANT_DATABASES`: the per-tenant database
configuration dictionary with keys NAME, USER, PASSWORD, HOST, PORT. -/
structure DbConfig where
  NAME : String
  USER : String
  PASSWORD : String
  HOST : String
  PORT : Nat
  deriving DecidableEq, Repr

/-- The argument tuple the source passes to `psycopg2.connect`: two stray
positional arguments `1, 20` followed by the keyword arguments taken from
the tenant's `DbConfig` (source lines 19-26). -/
structure ConnectArgs where
  pos1 : Nat
  pos2 : Nat
  database : String
  user : String
  password : String
  host : String
  port : Nat
  deriving DecidableEq, Repr

/-- The exact call the source makes for a config: positional `1, 20` plus
the five keyword arguments. -/
def mkConnectArgs (cfg : DbConfig) : ConnectArgs :=
  { pos1 := 1, pos2 := 20, database := cfg.NAME, user := cfg.USER,
    password := cfg.PASSWORD, host := cfg.HOST, port := cfg.PORT }

/-- A value that can be stored in `connection_pools`.  `psycopg2.connect`
returns a raw connection object (`rawConn`); a bounded connection pool
(what `psycopg2.pool` constructors return) would be a `connPool` with its
minimum and maximum size.  The source only ever produces `rawConn`s. -/
inductive DbHandle where
  | rawConn (connId : Nat)
  | connPool (minconn maxconn : Nat) (poolId : Nat)
  deriving DecidableEq, Repr

/-- The environment oracle: for a given argument tuple, `none` means the
`psycopg2.connect` call raises an exception, `some cid` means it succeeds
and returns the connection object identified by `cid`. -/
def ConnectEnv : Type := ConnectArgs → Option Nat

/-- Embedding of the library call `psycopg2.connect`: on success it yields
a raw single connection, never a pool. -/
def psycopg2_connect (env : ConnectEnv) (args : ConnectArgs) : Option DbHandle :=
  (env args).map DbHandle.rawConn

/-- Python dict membership: `k in d`. -/
def dictMem {α : Type} (d : List (String × α)) (k : String) : Bool :=
  d.any (fun p => p.1 == k)

/-- Python dict lookup `d[k]` (first matching key; keys are unique in a
dict, so this is the entry for `k`). -/
def dictGet {α : Type} (d : List (String × α)) (k : String) : Option α :=
  match d with
  | [] => none
  | p :: rest => if p.1 == k then some p.2 else dictGet rest k

/-- Python dict assignment `d[k] = v`: overwrite the entry for `k` if one
exists, otherwise append a new entry (insertion order preserved). -/
def dictSet {α : Type} (d : List (String × α)) (k : String) (v : α) :
    List (String × α) :=
  match d with
  | [] => [(k, v)]
  | p :: rest => if p.1 == k then (k, v) :: rest else p :: dictSet rest k v

/-- State threaded through one iteration of the `for` loop of
`_initialize_pools`: the dictionary built so far, and the trace of tenant
ids for which a `psycopg2.connect` call has been attempted. -/
structure InitState where
  connection_pools : List (String × DbHandle)
  attempted : List String
  deriving Repr

/-- One iteration of the loop body of `_initialize_pools` (source lines
17-28): attempt `psycopg2.connect(1, 20, **cfg)`; on success store the
result under the tenant id, on exception print and continue (the stored
dictionary is left unchanged). -/
def initStep (env : ConnectEnv) (st : InitState) (entry : String × DbConfig) :
    InitState :=
  match psycopg2_connect env (mkConnectArgs entry.2) with
  | some h =>
      { connection_pools := dictSet st.connection_pools entry.1 h,
        attempted := st.attempted ++ [entry.1] }
  | none =>
      { connection_pools := st.connection_pools,
        attempted := st.attempted ++ [entry.1] }

/-- Embedding of `_initialize_pools` (source lines 16-28), starting from
the empty dictionary set up by `__init__`. `tenantDatabases` is the
`settings.TENANT_DATABASES` dict as an ordered list of entries with
pairwise-distinct keys. -/
def initPoolsState (env : ConnectEnv) (tenantDatabases : List (String × DbConfig)) :
    InitState :=
  tenantDatabases.foldl (initStep env) { connection_pools := [], attempted := [] }

/-- The `connection_pools` dictionary after `_initialize_pools`. -/
def initPools (env : ConnectEnv) (tenantDatabases : List (String × DbConfig)) :
    List (String × DbHandle) :=
  (initPoolsState env tenantDatabases).connection_pools

/-- The middleware object: after `__init__` its only data is the
`connection_pools` dictionary (`get_response` and the lock are passed
separately where needed). -/
structure TenantMiddleware where
  connection_pools : List (String × DbHandle)
  deriving Repr

/-- Embedding of `TenantMiddleware.__init__` (source lines 10-14): start
from an empty dictionary and run `_initialize_pools`. -/
def TenantMiddleware.init (env : ConnectEnv)
    (tenantDatabases : List (String × DbConfig)) : TenantMiddleware :=
  { connection_pools := initPools env tenantDatabases }

/-- A Django `HttpRequest` as the middleware sees it: its headers, plus the
two attributes the middleware may set (absent, i.e. `none`, until set). -/
structure HttpRequest where
  headers : List (String × String)
  tenant_id : Option String
  db_pool : Option DbHandle
  deriving DecidableEq, Repr

/-- `request.headers.get(key, default)`. -/
def headersGet (headers : List (String × String)) (key dflt : String) : String :=
  match headers with
  | [] => dflt
  | p :: rest => if p.1 == key then p.2 else headersGet rest key dflt

/-- The value `__call__` returns: either the `JsonResponse` the middleware
builds itself, or whatever the downstream handler returned. -/
inductive MWResponse where
  | jsonResponse (body : List (String × String))
  | downstream (resp : Nat)
  deriving DecidableEq, Repr

/-- Everything observable about one execution of `__call__`: the returned
response, the request object's final state, the registry dictionary's final
state, whether `get_response` was invoked, and the ids of database
connections checked out from any stored handle during the call. -/
structure CallOutcome where
  response : MWResponse
  request : HttpRequest
  connection_pools : List (String × DbHandle)
  downstreamCalled : Bool
  checkedOut : List Nat
  deriving Repr

/-- Embedding of `TenantMiddleware.__call__` (source lines 29-38).
`get_response` is the downstream handler, supplied by Django at
`__init__`; its result is abstracted to a `Nat` identifying the response.
The code reads `x-org` with default `"tenant1"`, answers a `JsonResponse`
with body `error: "Invalid tenant"` when the id is not a key of
`connection_pools`, and otherwise sets `request.tenant_id` and
`request.db_pool` and calls `get_response(request)`.  No branch writes to
`connection_pools` and no branch checks a connection out of any handle. -/
def TenantMiddleware.call (connection_pools : List (String × DbHandle))
    (get_response : HttpRequest → Nat) (request : HttpRequest) : CallOutcome :=
  let tenant_id := headersGet request.headers "x-org" "tenant1"
  if dictMem connection_pools tenant_id then
    match dictGet connection_pools tenant_id with
    | some p =>
        let request' : HttpRequest :=
          { request with tenant_id := some tenant_id, db_pool := some p }
        { response := MWResponse.downstream (get_response request'),
          request := request',
          connection_pools := connection_pools,
          downstreamCalled := true,
          checkedOut := [] }
    | none =>
        -- unreachable: membership of a dict key implies the lookup succeeds
        { response := MWResponse.jsonResponse [("error", "Invalid tenant")],
          request := request,
          connection_pools := connection_pools,
          downstreamCalled := false,
          checkedOut := [] }
  else
    { response := MWResponse.jsonResponse [("error", "Invalid tenant")],
      request := request,
      connection_pools := connection_pools,
      downstreamCalled := false,
      checkedOut := [] }

/-- A whole run of the middleware: dispatch a list of requests in order,
threading the registry state (which `__call__` never changes) from each
call to the next. -/
def dispatchMany (m : TenantMiddleware) (get_response : HttpRequest → Nat) :
    List HttpRequest → TenantMiddleware × List MWResponse
  | [] => (m, [])
  | r :: rs =>
      let out := TenantMiddleware.call m.connection_pools get_response r
      let rest := dispatchMany { connection_pools := out.connection_pools } get_response rs
      (rest.1, out.response :: rest.2)

/-- Modelled from the spec: a stored value is a bounded connection pool of
minimum size 1 and maximum size 20 (the `ConnectionPool` sized
`[min=1, max=20]` that section 4.1 of the spec requires the registry to
construct and store). -/
def isBoundedPool (h : DbHandle) : Prop :=
  ∃ pid, h = DbHandle.connPool 1 20 pid

instance (h : DbHandle) : Decidable (isBoundedPool h) := by
  unfold isBoundedPool
  match h with
  | DbHandle.rawConn cid =>
      exact isFalse (by rintro ⟨pid, hpid⟩; exact DbHandle.noConfusion hpid)
  | DbHandle.connPool a b pid =>
      by_cases hab : a = 1 ∧ b = 20
      · exact isTrue ⟨pid, by rw [hab.1, hab.2]⟩
      · refine isFalse ?_
        rintro ⟨q, hq⟩
        cases hq
        exact hab ⟨rfl, rfl⟩

/-! ### Dictionary lemmas -/

theorem dictGet_dictSet_self {α : Type} (d : List (String × α)) (k : String) (v : α) :
    dictGet (dictSet d k v) k = some v := by
  induction d with
  | nil => simp [dictSet, dictGet]
  | cons p rest ih =>
      by_cases h : p.1 = k
      · simp [dictSet, dictGet, h]
      · simp [dictSet, dictGet, h, ih]

theorem dictGet_dictSet_ne {α : Type} (d : List (String × α)) (k t : String) (v : α)
    (hne : t ≠ k) : dictGet (dictSet d k v) t = dictGet d t := by
  have hkt : ¬ (k = t) := fun h => hne h.symm
  induction d with
  | nil => simp [dictSet, dictGet, hkt]
  | cons p rest ih =>
      by_cases h : p.1 = k
      · subst h
        simp [dictSet, dictGet, hkt]
      · simp [dictSet, dictGet, h, ih]

theorem dictGet_eq_none_of_not_mem {α : Type} (d : List (String × α)) (k : String)
    (h : k ∉ d.map Prod.fst) : dictGet d k = none := by
  induction d with
  | nil => rfl
  | cons p rest ih =>
      rw [List.map_cons, List.mem_cons] at h
      push_neg at h
      have hp : ¬ (p.1 = k) := fun hh => h.1 hh.symm
      simp [dictGet, hp]
      exact ih h.2

theorem dictMem_eq_isSome {α : Type} (d : List (String × α)) (k : String) :
    dictMem d k = (dictGet d k).isSome := by
  induction d with
  | nil => simp [dictMem, dictGet]
  | cons p rest ih =>
      by_cases h : p.1 = k
      · simp [dictMem, dictGet, h]
      · simp [dictMem, dictGet, h, ← ih, List.any_cons]

/-! ### Characterizing the dictionary built by the initialization loop -/

theorem foldl_attempted (env : ConnectEnv) (cfgs : List (String × DbConfig)) (st : InitState) :
    (cfgs.foldl (initStep env) st).attempted = st.attempted ++ cfgs.map Prod.fst := by
  induction cfgs generalizing st with
  | nil => simp
  | cons e rest ih =>
      rw [List.foldl_cons, ih]
      unfold initStep
      cases psycopg2_connect env (mkConnectArgs e.2) <;> simp

theorem foldl_pools_get_of_absent (env : ConnectEnv) (cfgs : List (String × DbConfig))
    (t : String) (habs : dictGet cfgs t = none) (st : InitState) :
    dictGet (cfgs.foldl (initStep env) st).connection_pools t =
      dictGet st.connection_pools t := by
  induction cfgs generalizing st with
  | nil => simp
  | cons e rest ih =>
      have hne : ¬ (e.1 = t) := by
        intro h
        simp [dictGet, h] at habs
      have habs' : dictGet rest t = none := by
        simpa [dictGet, hne] using habs
      rw [List.foldl_cons, ih habs']
      unfold initStep
      cases hconn : psycopg2_connect env (mkConnectArgs e.2) with
      | none => rfl
      | some h => simpa using dictGet_dictSet_ne st.connection_pools e.1 t h (fun hh => hne hh.symm)

theorem foldl_pools_get_of_success (env : ConnectEnv) (cfgs : List (String × DbConfig))
    (t : String) (cfg : DbConfig) (cid : Nat)
    (hnd : (cfgs.map Prod.fst).Nodup)
    (hcfg : dictGet cfgs t = some cfg) (henv : env (mkConnectArgs cfg) = some cid)
    (st : InitState) :
    dictGet (cfgs.foldl (initStep env) st).connection_pools t =
      some (DbHandle.rawConn cid) := by
  induction cfgs generalizing st with
  | nil => simp [dictGet] at hcfg
  | cons e rest ih =>
      rw [List.map_cons, List.nodup_cons] at hnd
      by_cases hkey : e.1 = t
      · have hcfg' : cfg = e.2 := by
          have := hcfg
          simp [dictGet, hkey] at this
          exact this.symm
        have habs : dictGet rest t = none := by
          refine dictGet_eq_none_of_not_mem rest t ?_
          rw [← hkey]
          exact hnd.1
        rw [List.foldl_cons, foldl_pools_get_of_absent env rest t habs]
        unfold initStep
        rw [hcfg'] at henv
        simp [psycopg2_connect, henv, ← hkey, dictGet_dictSet_self]
      · have hcfg' : dictGet rest t = some cfg := by
          simpa [dictGet, hkey] using hcfg
        rw [List.foldl_cons]
        exact ih hnd.2 hcfg' _

theorem foldl_pools_get_of_failure (env : ConnectEnv) (cfgs : List (String × DbConfig))
    (t : String) (cfg : DbConfig)
    (hnd : (cfgs.map Prod.fst).Nodup)
    (hcfg : dictGet cfgs t = some cfg) (henv : env (mkConnectArgs cfg) = none)
    (st : InitState) :
    dictGet (cfgs.foldl (initStep env) st).connection_pools t =
      dictGet st.connection_pools t := by
  induction cfgs generalizing st with
  | nil => simp [dictGet] at hcfg
  | cons e rest ih =>
      rw [List.map_cons, List.nodup_cons] at hnd
      by_cases hkey : e.1 = t
      · have hcfg' : cfg = e.2 := by
          have := hcfg
          simp [dictGet, hkey] at this
          exact this.symm
        have habs : dictGet rest t = none := by
          refine dictGet_eq_none_of_not_mem rest t ?_
          rw [← hkey]
          exact hnd.1
        rw [List.foldl_cons, foldl_pools_get_of_absent env rest t habs]
        unfold initStep
        rw [hcfg'] at henv
        simp [psycopg2_connect, henv]
      · have hcfg' : dictGet rest t = some cfg := by
          simpa [dictGet, hkey] using hcfg
        rw [List.foldl_cons, ih hnd.2 hcfg' (initStep env st e)]
        unfold initStep
        cases hconn : psycopg2_connect env (mkConnectArgs e.2) with
        | none => rfl
        | some hv =>
            simpa using
              dictGet_dictSet_ne st.connection_pools e.1 t hv (fun hh => hkey hh.symm)

theorem foldl_pools_entry (env : ConnectEnv) (cfgs : List (String × DbConfig)) :
    ∀ (st : InitState) (t : String) (h : DbHandle),
      dictGet (cfgs.foldl (initStep env) st).connection_pools t = some h →
      dictGet st.connection_pools t = some h ∨
        ∃ cfg cid, (t, cfg) ∈ cfgs ∧ env (mkConnectArgs cfg) = some cid ∧
          h = DbHandle.rawConn cid := by
  induction cfgs with
  | nil => intro st t h hget; exact Or.inl hget
  | cons e rest ih =>
      intro st t h hget
      rw [List.foldl_cons] at hget
      rcases ih _ t h hget with hbase | ⟨cfg, cid, hmem, henv, hh⟩
      · unfold initStep at hbase
        cases hconn : psycopg2_connect env (mkConnectArgs e.2) with
        | none =>
            rw [hconn] at hbase
            exact Or.inl hbase
        | some hv =>
            rw [hconn] at hbase
            by_cases hkey : t = e.1
            · subst hkey
              simp only [dictGet_dictSet_self, Option.some.injEq] at hbase
              cases henvv : env (mkConnectArgs e.2) with
              | none => simp [psycopg2_connect, henvv] at hconn
              | some cid =>
                  refine Or.inr ⟨e.2, cid, List.mem_cons_self _ _, henvv, ?_⟩
                  have hvr : hv = DbHandle.rawConn cid := by
                    simp [psycopg2_connect, henvv] at hconn
                    exact hconn.symm
                  rw [← hbase, hvr]
            · rw [dictGet_dictSet_ne _ _ _ _ hkey] at hbase
              exact Or.inl hbase
      · exact Or.inr ⟨cfg, cid, List.mem_cons_of_mem _ hmem, henv, hh⟩

/-! ### Characterizing one execution of `__call__` -/

theorem call_of_get_none (pools : List (String × DbHandle)) (gr : HttpRequest → Nat)
    (req : HttpRequest)
    (h : dictGet pools (headersGet req.headers "x-org" "tenant1") = none) :
    TenantMiddleware.call pools gr req =
      { response := MWResponse.jsonResponse [("error", "Invalid tenant")],
        request := req, connection_pools := pools,
        downstreamCalled := false, checkedOut := [] } := by
  unfold TenantMiddleware.call
  simp only [dictMem_eq_isSome, h, Option.isSome_none, Bool.false_eq_true, if_false]

theorem call_of_get_some (pools : List (String × DbHandle)) (gr : HttpRequest → Nat)
    (req : HttpRequest) (p : DbHandle)
    (h : dictGet pools (headersGet req.headers "x-org" "tenant1") = some p) :
    TenantMiddleware.call pools gr req =
      { response := MWResponse.downstream
          (gr { req with
                  tenant_id := some (headersGet req.headers "x-org" "tenant1"),
                  db_pool := some p }),
        request := { req with
                       tenant_id := some (headersGet req.headers "x-org" "tenant1"),
                       db_pool := some p },
        connection_pools := pools, downstreamCalled := true, checkedOut := [] } := by
  unfold TenantMiddleware.call
  simp only [dictMem_eq_isSome, h, Option.isSome_some, if_true]

theorem call_connection_pools_eq (pools : List (String × DbHandle))
    (gr : HttpRequest → Nat) (req : HttpRequest) :
    (TenantMiddleware.call pools gr req).connection_pools = pools := by
  cases h : dictGet pools (headersGet req.headers "x-org" "tenant1") with
  | none => rw [call_of_get_none pools gr req h]
  | some p => rw [call_of_get_some pools gr req p h]

theorem call_checkedOut_eq (pools : List (String × DbHandle))
    (gr : HttpRequest → Nat) (req : HttpRequest) :
    (TenantMiddleware.call pools gr req).checkedOut = [] := by
  cases h : dictGet pools (headersGet req.headers "x-org" "tenant1") with
  | none => rw [call_of_get_none pools gr req h]
  | some p => rw [call_of_get_some pools gr req p h]

theorem dispatchMany_fst (gr : HttpRequest → Nat) (reqs : List HttpRequest)
    (m : TenantMiddleware) : (dispatchMany m gr reqs).1 = m := by
  induction reqs generalizing m with
  | nil => rfl
  | cons r rs ih =>
      show (dispatchMany { connection_pools :=
        (TenantMiddleware.call m.connection_pools gr r).connection_pools } gr rs).1 = m
      rw [call_connection_pools_eq]
      exact ih m

theorem headersGet_of_absent (hs : List (String × String)) (k d : String)
    (h : ∀ p ∈ hs, p.1 ≠ k) : headersGet hs k d = d := by
  induction hs with
  | nil => rfl
  | cons p rest ih =>
      have hp : ¬ (p.1 = k) := h p (List.mem_cons_self _ _)
      simp [headersGet, hp]
      exact ih (fun q hq => h q (List.mem_cons_of_mem _ hq))

/-! ### Concrete fixtures for the witnesses -/

/-- Fixture: the database config of a reachable tenant. -/
def cfgA : DbConfig :=
  { NAME := "dbA", USER := "userA", PASSWORD := "pwA", HOST := "hostA", PORT := 5432 }

/-- Fixture: the database config of an unreachable tenant. -/
def cfgB : DbConfig :=
  { NAME := "dbB", USER := "userB", PASSWORD := "pwB", HOST := "hostB", PORT := 5433 }

/-- Fixture environment: a connect call against `hostA` succeeds and
returns connection object 7; any other connect call raises. -/
def envA : ConnectEnv :=
  fun args => if args.host = "hostA" then some 7 else none

/-- Fixture `settings.TENANT_DATABASES`: `tenant1` backed by `cfgA`
(reachable), `tenant2` backed by `cfgB` (unreachable). -/
def cfgsAB : List (String × DbConfig) :=
  [("tenant1", cfgA), ("tenant2", cfgB)]

/-- Fixture downstream handler. -/
def grZero : HttpRequest → Nat := fun _ => 0

/-- Fixture downstream handler distinguishable from `grZero`. -/
def grOne : HttpRequest → Nat := fun _ => 1

/-- Fixture request carrying `x-org: t`. -/
def reqFor (t : String) : HttpRequest :=
  { headers := [("x-org", t)], tenant_id := none, db_pool := none }

/-- Fixture request with no `x-org` header. -/
def reqBare : HttpRequest :=
  { headers := [("accept", "application/json")], tenant_id := none, db_pool := none }

/-! ### The claims -/

/-- Claim C1: after registry initialization, resolving the tenant id `t`
derived from the request returns exactly the handle stored for `t` whenever
`t` is configured and its `psycopg2.connect` call succeeded, and dispatch
answers the invalid-tenant error whenever the call failed or `t` was never
configured. -/
theorem resolve_after_init (env : ConnectEnv) (cfgs : List (String × DbConfig))
    (gr : HttpRequest → Nat) (req : HttpRequest) (t : String)
    (hnd : (cfgs.map Prod.fst).Nodup)
    (ht : headersGet req.headers "x-org" "tenant1" = t) :
    (∀ cfg cid, dictGet cfgs t = some cfg → env (mkConnectArgs cfg) = some cid →
        dictGet (initPools env cfgs) t = some (DbHandle.rawConn cid) ∧
        (TenantMiddleware.call (initPools env cfgs) gr req).request.db_pool =
          some (DbHandle.rawConn cid) ∧
        (TenantMiddleware.call (initPools env cfgs) gr req).downstreamCalled = true) ∧
    (∀ cfg, dictGet cfgs t = some cfg → env (mkConnectArgs cfg) = none →
        (TenantMiddleware.call (initPools env cfgs) gr req).response =
          MWResponse.jsonResponse [("error", "Invalid tenant")]) ∧
    (dictGet cfgs t = none →
        (TenantMiddleware.call (initPools env cfgs) gr req).response =
          MWResponse.jsonResponse [("error", "Invalid tenant")]) := by
  subst ht
  refine ⟨?_, ?_, ?_⟩
  · intro cfg cid hcfg henv
    have hget : dictGet (initPools env cfgs)
        (headersGet req.headers "x-org" "tenant1") = some (DbHandle.rawConn cid) :=
      foldl_pools_get_of_success env cfgs _ cfg cid hnd hcfg henv
        { connection_pools := [], attempted := [] }
    rw [call_of_get_some _ gr req _ hget]
    exact ⟨hget, rfl, rfl⟩
  · intro cfg hcfg henv
    have hget : dictGet (initPools env cfgs)
        (headersGet req.headers "x-org" "tenant1") = none :=
      foldl_pools_get_of_failure env cfgs _ cfg hnd hcfg henv
        { connection_pools := [], attempted := [] }
    rw [call_of_get_none _ gr req hget]
  · intro hcfg
    have hget : dictGet (initPools env cfgs)
        (headersGet req.headers "x-org" "tenant1") = none :=
      foldl_pools_get_of_absent env cfgs _ hcfg
        { connection_pools := [], attempted := [] }
    rw [call_of_get_none _ gr req hget]

/-- Witness for C1 at the fixture: `tenant1` succeeded (handle 7),
`tenant2`'s connect call failed, `"ghost"` was never configured. -/
theorem resolve_after_init_witness :
    (dictGet (initPools envA cfgsAB) "tenant1" = some (DbHandle.rawConn 7) ∧
      (TenantMiddleware.call (initPools envA cfgsAB) grZero
        (reqFor "tenant1")).request.db_pool = some (DbHandle.rawConn 7) ∧
      (TenantMiddleware.call (initPools envA cfgsAB) grZero
        (reqFor "tenant1")).downstreamCalled = true) ∧
    (TenantMiddleware.call (initPools envA cfgsAB) grZero (reqFor "tenant2")).response =
      MWResponse.jsonResponse [("error", "Invalid tenant")] ∧
    (TenantMiddleware.call (initPools envA cfgsAB) grZero (reqFor "ghost")).response =
      MWResponse.jsonResponse [("error", "Invalid tenant")] := by
  refine ⟨?_, ?_, ?_⟩
  · exact (resolve_after_init envA cfgsAB grZero (reqFor "tenant1") "tenant1"
      (by decide) (by decide)).1 cfgA 7 (by decide) (by decide)
  · exact (resolve_after_init envA cfgsAB grZero (reqFor "tenant2") "tenant2"
      (by decide) (by decide)).2.1 cfgB (by decide) (by decide)
  · exact (resolve_after_init envA cfgsAB grZero (reqFor "ghost") "ghost"
      (by decide) (by decide)).2.2 (by decide)

/-- Claim C2: when the request carries no `x-org` header, dispatch resolves
the default identifier `"tenant1"`: if `"tenant1"` is a key of the mapping
its handle is attached and the request proceeds downstream, otherwise
dispatch answers the invalid-tenant error. -/
theorem default_tenant_dispatch (pools : List (String × DbHandle))
    (gr : HttpRequest → Nat) (req : HttpRequest)
    (hno : ∀ p ∈ req.headers, p.1 ≠ "x-org") :
    (∀ p, dictGet pools "tenant1" = some p →
        (TenantMiddleware.call pools gr req).request.tenant_id = some "tenant1" ∧
        (TenantMiddleware.call pools gr req).request.db_pool = some p ∧
        (TenantMiddleware.call pools gr req).downstreamCalled = true) ∧
    (dictGet pools "tenant1" = none →
        (TenantMiddleware.call pools gr req).response =
          MWResponse.jsonResponse [("error", "Invalid tenant")] ∧
        (TenantMiddleware.call pools gr req).downstreamCalled = false) := by
  have hdef : headersGet req.headers "x-org" "tenant1" = "tenant1" :=
    headersGet_of_absent req.headers "x-org" "tenant1" hno
  constructor
  · intro p hp
    rw [call_of_get_some pools gr req p (by rw [hdef]; exact hp)]
    refine ⟨?_, rfl, rfl⟩
    simp [hdef]
  · intro hp
    rw [call_of_get_none pools gr req (by rw [hdef]; exact hp)]
    exact ⟨rfl, rfl⟩

/-- Witness for C2: a header-less request with `tenant1` configured, and
the same request against an empty registry. -/
theorem default_tenant_dispatch_witness :
    ((TenantMiddleware.call [("tenant1", DbHandle.rawConn 7)] grZero
        reqBare).request.tenant_id = some "tenant1" ∧
      (TenantMiddleware.call [("tenant1", DbHandle.rawConn 7)] grZero
        reqBare).request.db_pool = some (DbHandle.rawConn 7) ∧
      (TenantMiddleware.call [("tenant1", DbHandle.rawConn 7)] grZero
        reqBare).downstreamCalled = true) ∧
    ((TenantMiddleware.call [] grZero reqBare).response =
        MWResponse.jsonResponse [("error", "Invalid tenant")] ∧
      (TenantMiddleware.call [] grZero reqBare).downstreamCalled = false) := by
  constructor
  · exact (default_tenant_dispatch [("tenant1", DbHandle.rawConn 7)] grZero reqBare
      (by decide)).1 (DbHandle.rawConn 7) (by decide)
  · exact (default_tenant_dispatch [] grZero reqBare (by decide)).2 (by decide)

/-- Claim C3: a connect failure for one tenant does not abort
initialization: every configured tenant is still attempted in order, the
failed tenant is absent from the resulting mapping, and every tenant whose
connect call succeeded is still resolvable by dispatch. -/
theorem failure_is_isolated (env : ConnectEnv) (cfgs : List (String × DbConfig))
    (tf : String) (cfgf : DbConfig)
    (hnd : (cfgs.map Prod.fst).Nodup)
    (hf : dictGet cfgs tf = some cfgf) (hfail : env (mkConnectArgs cfgf) = none) :
    (initPoolsState env cfgs).attempted = cfgs.map Prod.fst ∧
    dictGet (initPools env cfgs) tf = none ∧
    (∀ ts cfgS cid (gr : HttpRequest → Nat) (req : HttpRequest),
        dictGet cfgs ts = some cfgS → env (mkConnectArgs cfgS) = some cid →
        headersGet req.headers "x-org" "tenant1" = ts →
        (TenantMiddleware.call (initPools env cfgs) gr req).request.db_pool =
          some (DbHandle.rawConn cid) ∧
        (TenantMiddleware.call (initPools env cfgs) gr req).downstreamCalled = true) := by
  refine ⟨?_, ?_, ?_⟩
  · simpa using foldl_attempted env cfgs { connection_pools := [], attempted := [] }
  · exact foldl_pools_get_of_failure env cfgs tf cfgf hnd hf hfail
      { connection_pools := [], attempted := [] }
  · intro ts cfgS cid gr req hcfg henv ht
    subst ht
    have hget : dictGet (initPools env cfgs)
        (headersGet req.headers "x-org" "tenant1") = some (DbHandle.rawConn cid) :=
      foldl_pools_get_of_success env cfgs _ cfgS cid hnd hcfg henv
        { connection_pools := [], attempted := [] }
    rw [call_of_get_some _ gr req _ hget]
    exact ⟨rfl, rfl⟩

/-- Witness for C3 at the fixture: `tenant2` fails, yet both tenants were
attempted, `tenant2` is absent from the mapping, and `tenant1` resolves. -/
theorem failure_is_isolated_witness :
    (initPoolsState envA cfgsAB).attempted = cfgsAB.map Prod.fst ∧
    dictGet (initPools envA cfgsAB) "tenant2" = none ∧
    ((TenantMiddleware.call (initPools envA cfgsAB) grZero
        (reqFor "tenant1")).request.db_pool = some (DbHandle.rawConn 7) ∧
      (TenantMiddleware.call (initPools envA cfgsAB) grZero
        (reqFor "tenant1")).downstreamCalled = true) := by
  obtain ⟨h1, h2, h3⟩ := failure_is_isolated envA cfgsAB "tenant2" cfgB
    (by decide) (by decide) (by decide)
  exact ⟨h1, h2, h3 "tenant1" cfgA 7 grZero (reqFor "tenant1")
    (by decide) (by decide) (by decide)⟩

/-- Counterexample to claim C4 as stated: on the unknown tenant `"ghost"`
the middleware itself constructs and returns a protocol-level JSON response
(body `error: "Invalid tenant"`), and neither string of that body carries
the offending identifier. -/
theorem dispatch_builds_protocol_response :
    (TenantMiddleware.call [] grZero (reqFor "ghost")).response =
      MWResponse.jsonResponse [("error", "Invalid tenant")] ∧
    "error" ≠ "ghost" ∧ "Invalid tenant" ≠ "ghost" := by
  decide

/-- Claim C4 (amended): for every tenant identifier absent from the
mapping, dispatch fails by itself returning a protocol-level JSON response
with body `error: "Invalid tenant"` — a body that does not carry the
offending identifier — and the downstream handler is not invoked. -/
theorem unknown_tenant_json_error (pools : List (String × DbHandle))
    (gr : HttpRequest → Nat) (req : HttpRequest) (t : String)
    (ht : headersGet req.headers "x-org" "tenant1" = t)
    (habs : dictGet pools t = none) :
    (TenantMiddleware.call pools gr req).response =
      MWResponse.jsonResponse [("error", "Invalid tenant")] ∧
    (TenantMiddleware.call pools gr req).downstreamCalled = false := by
  subst ht
  rw [call_of_get_none pools gr req habs]
  exact ⟨rfl, rfl⟩

/-- Witness for the amended C4 at the unknown tenant `"ghost"`. -/
theorem unknown_tenant_json_error_witness :
    (TenantMiddleware.call [] grZero (reqFor "ghost")).response =
      MWResponse.jsonResponse [("error", "Invalid tenant")] ∧
    (TenantMiddleware.call [] grZero (reqFor "ghost")).downstreamCalled = false :=
  unknown_tenant_json_error [] grZero (reqFor "ghost") "ghost" (by decide) (by decide)

/-- Claim C5, evaluated at a concrete input on which the code's behavior
diverges from the spec: the loop passes the stray positional arguments
`1, 20` to `psycopg2.connect` together with the config's keyword arguments,
and the value it stores for a successful tenant is the raw connection that
call returns — not a bounded pool of minimum size 1 and maximum size 20. -/
theorem stored_value_not_bounded_pool :
    mkConnectArgs cfgA =
      { pos1 := 1, pos2 := 20, database := "dbA", user := "userA",
        password := "pwA", host := "hostA", port := 5432 } ∧
    initPools envA [("tenant1", cfgA)] = [("tenant1", DbHandle.rawConn 7)] ∧
    ¬ isBoundedPool (DbHandle.rawConn 7) := by
  refine ⟨by decide, by decide, by decide⟩

/-- Claim C6: every entry of the mapping built at initialization stems from
a successful `psycopg2.connect` call — no null or partially-initialized
entry is ever stored — and dispatch preserves the mapping, so the invariant
survives any sequence of dispatches. -/
theorem mapping_entries_usable (env : ConnectEnv) (cfgs : List (String × DbConfig))
    (gr : HttpRequest → Nat) (reqs : List HttpRequest) :
    (∀ t h, dictGet (initPools env cfgs) t = some h →
        ∃ cfg cid, (t, cfg) ∈ cfgs ∧ env (mkConnectArgs cfg) = some cid ∧
          h = DbHandle.rawConn cid) ∧
    (dispatchMany (TenantMiddleware.init env cfgs) gr reqs).1.connection_pools =
      initPools env cfgs := by
  constructor
  · intro t h hget
    rcases foldl_pools_entry env cfgs { connection_pools := [], attempted := [] }
        t h hget with hbase | hx
    · simp [dictGet] at hbase
    · exact hx
  · rw [dispatchMany_fst]
    rfl

/-- Witness for C6 at the fixture: the entry stored for `tenant1` stems
from a successful connect call. -/
theorem mapping_entries_usable_witness :
    ∃ cfg cid, ("tenant1", cfg) ∈ cfgsAB ∧ envA (mkConnectArgs cfg) = some cid ∧
      DbHandle.rawConn 7 = DbHandle.rawConn cid :=
  (mapping_entries_usable envA cfgsAB grZero []).1 "tenant1"
    (DbHandle.rawConn 7) (by decide)

/-- Claim C7: dispatch is a pure read: it checks no connection out of any
stored handle, and it returns the registry mapping — and with it the state
carried by every stored handle — unchanged. -/
theorem dispatch_is_pure_read (pools : List (String × DbHandle))
    (gr : HttpRequest → Nat) (req : HttpRequest) :
    (TenantMiddleware.call pools gr req).checkedOut = [] ∧
    (TenantMiddleware.call pools gr req).connection_pools = pools ∧
    (∀ t, dictGet (TenantMiddleware.call pools gr req).connection_pools t =
      dictGet pools t) := by
  refine ⟨call_checkedOut_eq pools gr req, call_connection_pools_eq pools gr req, ?_⟩
  intro t
  rw [call_connection_pools_eq]

/-- Claim C9: on the error path — resolved identifier absent from the
mapping — `__call__` returns without invoking `get_response`: the request
object is exactly as it was (no `tenant_id` or `db_pool` attached), the
registry is unchanged, and the whole outcome is independent of the
downstream handler. -/
theorem error_path_leaves_state (pools : List (String × DbHandle))
    (gr gr' : HttpRequest → Nat) (req : HttpRequest) (t : String)
    (ht : headersGet req.headers "x-org" "tenant1" = t)
    (habs : dictGet pools t = none) :
    (TenantMiddleware.call pools gr req).downstreamCalled = false ∧
    (TenantMiddleware.call pools gr req).request = req ∧
    (TenantMiddleware.call pools gr req).connection_pools = pools ∧
    TenantMiddleware.call pools gr req = TenantMiddleware.call pools gr' req := by
  subst ht
  rw [call_of_get_none pools gr req habs, call_of_get_none pools gr' req habs]
  exact ⟨rfl, rfl, rfl, rfl⟩

/-- Witness for C9 at the unknown tenant `"ghost"` and two distinguishable
downstream handlers. -/
theorem error_path_leaves_state_witness :
    (TenantMiddleware.call [] grZero (reqFor "ghost")).downstreamCalled = false ∧
    (TenantMiddleware.call [] grZero (reqFor "ghost")).request = reqFor "ghost" ∧
    (TenantMiddleware.call [] grZero (reqFor "ghost")).connection_pools = [] ∧
    TenantMiddleware.call [] grZero (reqFor "ghost") =
      TenantMiddleware.call [] grOne (reqFor "ghost") :=
  error_path_leaves_state [] grZero grOne (reqFor "ghost") "ghost"
    (by decide) (by decide)

/-- Claim C10: after `__init__` the mapping is never mutated again: a
single dispatch hands back exactly the mapping it was given, and after any
sequence of dispatches the middleware still holds precisely the mapping
built at initialization. -/
theorem pools_never_mutated (env : ConnectEnv) (cfgs : List (String × DbConfig))
    (gr : HttpRequest → Nat) (reqs : List HttpRequest) :
    (∀ pools req, (TenantMiddleware.call pools gr req).connection_pools = pools) ∧
    (dispatchMany (TenantMiddleware.init env cfgs) gr reqs).1 =
      TenantMiddleware.init env cfgs ∧
    (dispatchMany (TenantMiddleware.init env cfgs) gr reqs).1.connection_pools =
      initPools env cfgs := by
  refine ⟨fun pools req => call_connection_pools_eq pools gr req,
    dispatchMany_fst gr reqs _, ?_⟩
  rw [dispatchMany_fst]
  rfl

end TenantMW
